import Mathlib

/-!
Shallow embedding of the source-monitoring and article-ingestion pipeline of
the wildlife-blog-tool repository (Next.js / TypeScript), covering:

* `src/lib/feeds/tag-article.ts` — the relevance tagger;
* `src/lib/storage/providers/file.ts` — the file-backed article store
  (`FileArticlesStorage.list/getByUrl/add/delete/deleteBySource`) and the
  due-for-fetch scheduler (`FileWatchedSourcesStorage.getDueForFetch`);
* `src/app/api/monitor/fetch/route.ts` and the cron route — the per-source
  orchestration loop `fetchSourceArticles`;
* the SSRF guard `isPrivateIp` / `assertSafeHttpUrl` and the robots gate
  call structure (research fetch module);
* the heuristic HTML extractor `parseHtmlNewsPage` (`parse-html.ts`).

Modelling conventions: JS strings are modelled as `List Char` (`Str`) so that
every operation is kernel-computable; the ASCII case mapping of
`toLowerCase` is implemented directly.  Timestamps (ISO strings / epoch
milliseconds in JS) are modelled as `Int` epoch milliseconds; `Date.now()`
and `new Date().toISOString()` inside one request are modelled by a single
`now` parameter.  `crypto.randomUUID()` is modelled by a fresh `Nat`
counter.  Network I/O is abstracted: DNS resolution, URL resolution and
`Date.parse` become oracle function parameters, and the outcome of a feed
or page fetch is an `Except` parameter.  Outbound effects relevant to the
claims are recorded in an explicit event trace.
-/

namespace WildlifeBlog

/-- JS strings modelled as lists of characters. -/
abbrev Str := List Char

/-- Literal conversion helper. -/
def str (s : String) : Str := s.toList

/-- ASCII lower-casing of one character (the fragment of `toLowerCase`
exercised by the embedded code paths). -/
def charLower (c : Char) : Char :=
  if 'A' ≤ c ∧ c ≤ 'Z' then Char.ofNat (c.toNat + 32) else c

/-- `String.prototype.toLowerCase` (ASCII fragment). -/
def lowerStr (s : Str) : Str := s.map charLower

/-- Whitespace class of the JS regexes (`\s`) restricted to the ASCII
whitespace characters that occur in the embedded inputs. -/
def isJsSpace (c : Char) : Bool :=
  c = ' ' || c = '\t' || c = '\n' || c = '\r'

/-- `String.prototype.trim`. -/
def trimStr (s : Str) : Str :=
  ((s.dropWhile isJsSpace).reverse.dropWhile isJsSpace).reverse

/-- `replace(/\s+/g, " ")`: collapse every maximal whitespace run to one
space (structurally recursive: inside a run, emission is deferred to the
run's last character). -/
def collapseWs : Str → Str
  | [] => []
  | [c] => if isJsSpace c then [' '] else [c]
  | c1 :: c2 :: rest =>
    if isJsSpace c1 ∧ isJsSpace c2 then collapseWs (c2 :: rest)
    else (if isJsSpace c1 then ' ' else c1) :: collapseWs (c2 :: rest)

/-- `String.prototype.startsWith`. -/
def startsWithStr (s p : Str) : Bool := p.isPrefixOf s

/-- `String.prototype.endsWith`. -/
def endsWithStr (s p : Str) : Bool := p.reverse.isPrefixOf s.reverse

/-- Occurrence of `p` in `s` at position `i`. -/
def occursAt (p s : Str) (i : Nat) : Bool := p.isPrefixOf (s.drop i)

/-- Substring test (used for the literal-substring regexes such as
`/\/(tag|category|author|page)\//`). -/
def containsStr (s p : Str) : Bool :=
  (List.range (s.length + 1)).any (occursAt p s)

/-- The word-character class `\w` of JS regexes. -/
def isWordChar (c : Char) : Bool :=
  ('a' ≤ c ∧ c ≤ 'z') || ('A' ≤ c ∧ c ≤ 'Z') || ('0' ≤ c ∧ c ≤ '9') || c = '_'

/-- Word-character test on an optional character (string edges count as
non-word positions, as in the JS `\b` semantics). -/
def optIsWord : Option Char → Bool
  | none => false
  | some c => isWordChar c

/-- A JS `\b` boundary holds between two (optional) characters iff exactly
one side is a word character. -/
def boundary (l r : Option Char) : Bool := optIsWord l != optIsWord r

/-- Match of the regex `\b<kw>\b` at position `i` of `text` (`kw` is taken
literally, mirroring `escapeRegex`). -/
def matchWordAt (kw text : Str) (i : Nat) : Bool :=
  kw.isPrefixOf (text.drop i)
  && boundary (text.take i).getLast? kw.head?
  && boundary kw.getLast? (text.drop (i + kw.length)).head?

/-- Test of the regex `\b<kw>\b` against `text` (both sides are already
lower-cased by the tagger, so the `i` flag of the source regex is inert). -/
def hasWordMatch (kw text : Str) : Bool :=
  (List.range (text.length + 1)).any (matchWordAt kw text)

/-! ## Relevance tagger (`src/lib/feeds/tag-article.ts`) -/

/-- The read-only organization keyword profile fields consumed by the
tagger. -/
structure OrganizationProfile where
  focusAreas : List Str
  preferredTerms : List Str
  objectives : List Str
deriving Repr, DecidableEq

/-- The fixed per-objective seed keyword table of `tagArticle`. -/
def objectiveKeywords (objective : Str) : List Str :=
  if objective = str "education" then
    [str "learn", str "science", str "research", str "study", str "discovery"]
  else if objective = str "awareness" then
    [str "campaign", str "awareness", str "impact", str "threat", str "crisis"]
  else if objective = str "donations" then
    [str "donate", str "support", str "fund", str "contribute", str "sponsor"]
  else if objective = str "news" then
    [str "news", str "update", str "announcement", str "milestone", str "achievement"]
  else if objective = str "species-info" then
    [str "species", str "wildlife", str "animal", str "population", str "habitat"]
  else if objective = str "habitat-info" then
    [str "ecosystem", str "habitat", str "environment", str "restoration", str "conservation"]
  else if objective = str "advocacy" then
    [str "policy", str "legislation", str "advocate", str "protect", str "law"]
  else if objective = str "volunteering" then
    [str "volunteer", str "join", str "help", str "community", str "event"]
  else []

/-- First-occurrence deduplication, as performed by `[...new Set(xs)]`. -/
def dedupKeepFirst (seen : List Str) : List Str → List Str
  | [] => []
  | k :: ks =>
    if seen.contains k then dedupKeepFirst seen ks
    else k :: dedupKeepFirst (k :: seen) ks

/-- Result record of `tagArticle`. -/
structure TagResult where
  matchedKeywords : List Str
  relevanceScore : Int
deriving Repr, DecidableEq

/-- `tagArticle` from `src/lib/feeds/tag-article.ts`: keyword union, ASCII
normalization, word-boundary matching, 25/15 scoring, upper clamp at 100. -/
def tagArticle (title excerpt : Str) (orgProfile : OrganizationProfile) : TagResult :=
  let text := lowerStr (title ++ [' '] ++ excerpt)
  let base := (orgProfile.focusAreas ++ orgProfile.preferredTerms).filter (fun k => !k.isEmpty)
  let keywords := base ++ (orgProfile.objectives.map objectiveKeywords).flatten
  let uniqueKeywords :=
    (dedupKeepFirst [] (keywords.map (fun k => trimStr (lowerStr k)))).filter
      (fun k => decide (2 ≤ k.length))
  let matched := uniqueKeywords.filter (fun kw => hasWordMatch kw text)
  let focusAreasLower := orgProfile.focusAreas.map lowerStr
  let score :=
    matched.foldl (fun acc m => acc + (if focusAreasLower.contains m then (25 : Int) else 15)) 0
  { matchedKeywords := matched, relevanceScore := min 100 score }

/-- Per-keyword weight of the tagger: 25 for a (lower-cased) focus-area
term, 15 otherwise. -/
def keywordWeight (focusAreasLower : List Str) (m : Str) : Int :=
  if focusAreasLower.contains m then 25 else 15

/-! ## Monitored sources and the due-for-fetch scheduler
(`FileWatchedSourcesStorage` in `src/lib/storage/providers/file.ts`) -/

/-- The stored source kind (`WatchedSourceType` with values "RSS" and "HTML"). -/
inductive WatchedSourceKind where
  | rss
  | html
deriving Repr, DecidableEq

/-- A monitored source record.  The source field named `type` is modelled as
`kind`; ISO timestamps are modelled as epoch milliseconds. -/
structure WatchedSource where
  id : Str
  name : Str
  url : Str
  kind : WatchedSourceKind
  enabled : Bool
  lastFetchedAt : Option Int
  fetchIntervalHours : Int
  createdAt : Int
deriving Repr, DecidableEq

/-- `FileWatchedSourcesStorage.getDueForFetch`: keep a source iff it is
enabled and (never fetched, or `now - lastFetch >= intervalHours * 3600000`
milliseconds). -/
def getDueForFetch (sources : List WatchedSource) (now : Int) : List WatchedSource :=
  sources.filter (fun s =>
    s.enabled &&
      match s.lastFetchedAt with
      | none => true
      | some lastFetch => decide (s.fetchIntervalHours * 3600000 ≤ now - lastFetch))

/-! ## Article store (`FileArticlesStorage` in
`src/lib/storage/providers/file.ts`).  The store state is the list of
article records in creation order; `crypto.randomUUID()` is modelled by a
caller-supplied fresh `Nat` id. -/

/-- A fetched-article record (`FetchedArticle` in `src/lib/storage/types.ts`);
`savedToKnowledge` is the promoted-to-library flag. -/
structure FetchedArticle where
  id : Nat
  sourceId : Str
  sourceName : Str
  title : Str
  url : Str
  publishedAt : Option Str
  fetchedAt : Int
  excerpt : Str
  matchedKeywords : List Str
  relevanceScore : Int
  savedToKnowledge : Bool
deriving Repr, DecidableEq

/-- Insertion step of the `list()` sort (descending by `fetchedAt`). -/
def insertByFetchedAt (a : FetchedArticle) :
    List FetchedArticle → List FetchedArticle
  | [] => [a]
  | b :: rest =>
    if b.fetchedAt ≤ a.fetchedAt then a :: b :: rest
    else b :: insertByFetchedAt a rest

/-- The `list()` sort: by `fetchedAt` descending (`Array.prototype.sort`
with comparator `new Date(b.fetchedAt) - new Date(a.fetchedAt)`, modelled
as an insertion sort with the same ordering). -/
def sortByFetchedAtDesc : List FetchedArticle → List FetchedArticle
  | [] => []
  | a :: rest => insertByFetchedAt a (sortByFetchedAtDesc rest)

/-- `FileArticlesStorage.list(options)`: filter by source and by minimum
relevance (a `minRelevance` of 0 is falsy in JS and disables that filter, as
does a `limit` of 0), sort by fetch time descending, then apply the limit. -/
def listArticles (stored : List FetchedArticle) (sourceId : Option Str)
    (minRelevance : Option Int) (limit : Option Nat) : List FetchedArticle :=
  let filtered := stored.filter (fun a =>
    (match sourceId with
     | some sid => decide (a.sourceId = sid)
     | none => true) &&
    (match minRelevance with
     | some m => decide (m = 0) || decide (m ≤ a.relevanceScore)
     | none => true))
  let sorted := sortByFetchedAtDesc filtered
  match limit with
  | some n => if n = 0 then sorted else sorted.take n
  | none => sorted

/-- `FileArticlesStorage.getByUrl`: first record of `list()` whose URL is
exactly the given one. -/
def getByUrl (stored : List FetchedArticle) (url : Str) : Option FetchedArticle :=
  (listArticles stored none none none).find? (fun a => a.url = url)

/-- The candidate-article argument of `FileArticlesStorage.add`. -/
structure ArticleCandidate where
  sourceId : Str
  sourceName : Str
  title : Str
  url : Str
  publishedAt : Option Str
  excerpt : Str
  matchedKeywords : List Str
  relevanceScore : Int
deriving Repr, DecidableEq

/-- `FileArticlesStorage.add`: return the existing record unchanged when the
URL is already stored, otherwise create a record with a fresh id, fetch time
`now` and `savedToKnowledge := false`. -/
def addArticle (stored : List FetchedArticle) (freshId : Nat) (now : Int)
    (args : ArticleCandidate) : FetchedArticle × List FetchedArticle :=
  match getByUrl stored args.url with
  | some existing => (existing, stored)
  | none =>
    let article : FetchedArticle :=
      { id := freshId, sourceId := args.sourceId, sourceName := args.sourceName,
        title := args.title, url := args.url, publishedAt := args.publishedAt,
        fetchedAt := now, excerpt := args.excerpt,
        matchedKeywords := args.matchedKeywords,
        relevanceScore := args.relevanceScore, savedToKnowledge := false }
    (article, stored ++ [article])

/-- `FileArticlesStorage.delete`: unlink the record with the given id;
report whether something was removed. -/
def deleteArticle (stored : List FetchedArticle) (id : Nat) :
    Bool × List FetchedArticle :=
  let remaining := stored.filter (fun a => a.id ≠ id)
  (decide (remaining.length ≠ stored.length), remaining)

/-- `FileArticlesStorage.deleteBySource`: list the articles of the source,
then delete each by id, counting successes. -/
def deleteBySource (stored : List FetchedArticle) (sourceId : Str) :
    Nat × List FetchedArticle :=
  (listArticles stored (some sourceId) none none).foldl
    (fun acc article =>
      let r := deleteArticle acc.2 article.id
      (if r.1 then acc.1 + 1 else acc.1, r.2))
    (0, stored)

/-! ## Sweep orchestration (`fetchSourceArticles` in
`src/app/api/monitor/fetch/route.ts` and in the cron route).  The outcome of
`parseRssFeed` / `parseHtmlNewsPage` (network and parsing) is supplied as an
`Except` parameter; outbound effects are recorded as events.  Both parse
functions issue the content fetch for the source URL as their first step and
neither consults the robots module, so processing a source emits exactly one
`contentFetch` event. -/

/-- Outbound-effect events of one processed source. -/
inductive SweepEvent where
  | robotsCheck (url : Str)
  | contentFetch (url : Str)
deriving Repr, DecidableEq

/-- Recognizer for robots-authorization events. -/
def isRobotsCheckEvent : SweepEvent → Bool
  | .robotsCheck _ => true
  | .contentFetch _ => false

/-- Recognizer for content-fetch events. -/
def isContentFetchEvent : SweepEvent → Bool
  | .robotsCheck _ => false
  | .contentFetch _ => true

/-- An article produced by a parser (`ParsedArticle` in `parse-rss.ts`). -/
structure ParsedArticle where
  title : Str
  url : Str
  publishedAt : Option Str
  excerpt : Str
deriving Repr, DecidableEq

/-- The state a sweep threads: stored articles, monitored sources, and the
fresh-id counter modelling `crypto.randomUUID()`. -/
structure SweepState where
  articles : List FetchedArticle
  sources : List WatchedSource
  nextId : Nat
deriving Repr, DecidableEq

/-- `updateWatchedSource(id, { lastFetchedAt })`: stamp the first source with
the given id (the update used by the orchestrator). -/
def updateLastFetched : List WatchedSource → Str → Int → List WatchedSource
  | [], _, _ => []
  | s :: rest, id, now =>
    if s.id = id then { s with lastFetchedAt := some now } :: rest
    else s :: updateLastFetched rest id now

/-- Aggregated per-source result of `fetchSourceArticles`. -/
structure FetchResult where
  newArticles : Nat
  errors : List Str
deriving Repr, DecidableEq

/-- The per-article body of the orchestrator loop: tag, add to storage, and
count the article as new iff the returned record's fetch time is within the
last 5000 milliseconds (`new Date(saved.fetchedAt).getTime() > Date.now() -
5000`). -/
def processArticle (source : WatchedSource) (orgProfile : OrganizationProfile)
    (now : Int) (acc : SweepState × Nat) (article : ParsedArticle) :
    SweepState × Nat :=
  let tag := tagArticle article.title article.excerpt orgProfile
  let r := addArticle acc.1.articles acc.1.nextId now
    { sourceId := source.id, sourceName := source.name, title := article.title,
      url := article.url, publishedAt := article.publishedAt,
      excerpt := article.excerpt, matchedKeywords := tag.matchedKeywords,
      relevanceScore := tag.relevanceScore }
  let isNew := decide (now - 5000 < r.1.fetchedAt)
  ({ acc.1 with articles := r.2, nextId := acc.1.nextId + 1 },
    if isNew then acc.2 + 1 else acc.2)

/-- `fetchSourceArticles`: parse the source (the parse call issues the
content fetch with no robots authorization), process each parsed article,
then stamp `lastFetchedAt`; a thrown parse is caught after the stamp site,
so the stamp is skipped and an error string is recorded. -/
def fetchSourceArticles (source : WatchedSource) (orgProfile : OrganizationProfile)
    (now : Int) (parseResult : Except Str (List ParsedArticle)) (st : SweepState) :
    FetchResult × SweepState × List SweepEvent :=
  let events := [SweepEvent.contentFetch source.url]
  match parseResult with
  | .error _ =>
    ({ newArticles := 0, errors := [str "Failed to fetch source " ++ source.name] },
      st, events)
  | .ok articles =>
    let r := articles.foldl (processArticle source orgProfile now) (st, 0)
    ({ newArticles := r.2, errors := [] },
      { r.1 with sources := updateLastFetched r.1.sources source.id now }, events)

/-! ## Safe Fetcher SSRF guard (`isPrivateIp` / `assertSafeHttpUrl` /
`fetchAndExtractPage` in `src/lib/research/fetch.ts`).  URL parsing
(`new URL`) is abstracted: the guard receives the parsed scheme, the
presence of credentials, and the hostname together with its `net.isIP`
classification.  The WHATWG parser serializes an IPv6 host with brackets
(`"[fe90::1]"`), for which `net.isIP` returns 0, so a hostname taken from
a URL is either a name (this includes bracketed IPv6 literals, whose
`dns.lookup` then throws) or an unbracketed dotted-quad IPv4 literal,
carried here with its four octet values — exactly the data the source
inspects.  DNS resolution (`dns.lookup`) is an oracle parameter returning
bare v4/v6 address strings (`none` models a lookup that throws, `some []`
an empty result); each returned address is checked with `isPrivateIp`. -/

/-- An address as returned by `dns.lookup`: a dotted-quad IPv4 address
(four octets) or an IPv6 address in bare textual form. -/
inductive IpAddr where
  | v4 (a b c d : Nat)
  | v6 (text : Str)
deriving Repr, DecidableEq

/-- `isPrivateIp`: octet tests for IPv4; for IPv6, lower-case the text and
test for `::1` and the textual prefixes `fe80:`, `fc`, `fd`. -/
def isPrivateIp : IpAddr → Bool
  | .v4 a b _ _ =>
    (a == 10) || (a == 127) || (a == 0) || ((a == 169) && (b == 254)) ||
    ((a == 172) && decide (16 ≤ b) && decide (b ≤ 31)) ||
    ((a == 192) && (b == 168)) ||
    ((a == 100) && decide (64 ≤ b) && decide (b ≤ 127)) ||
    decide (224 ≤ a)
  | .v6 s =>
    let normalized := lowerStr s
    (normalized == str "::1") || startsWithStr normalized (str "fe80:") ||
    startsWithStr normalized (str "fc") || startsWithStr normalized (str "fd")

/-- A parsed hostname: either a name, for which `net.isIP` returns 0
(bracketed IPv6 literals such as `"[fe90::1]"` fall in this class), or an
unbracketed IPv4 literal with its textual form and octet values, for which
`net.isIP` returns 4.  No URL input yields an unbracketed IPv6 hostname,
so `net.isIP` never returns 6 for a parsed hostname. -/
inductive Hostname where
  | name (text : Str)
  | ip4 (text : Str) (a b c d : Nat)
deriving Repr, DecidableEq

/-- The hostname text (`parsed.hostname`). -/
def hostText : Hostname → Str
  | .name t => t
  | .ip4 t _ _ _ _ => t

/-- The error classes `assertSafeHttpUrl` can throw. -/
inductive FetchGuardError where
  | badScheme
  | credentialsBlocked
  | emptyHost
  | localhostBlocked
  | privateBlocked
  | resolveFailed
deriving Repr, DecidableEq

/-- The components of a successfully constructed `URL` that the guard
inspects (a string failing `new URL` never reaches these checks). -/
structure UrlParts where
  scheme : Str
  hasCredentials : Bool
  host : Hostname
deriving Repr, DecidableEq

/-- `assertSafeHttpUrl`: scheme, credentials, empty-host, localhost/.local,
then either the literal-IP privacy test or DNS resolution with rejection
when any resolved address is private. -/
def assertSafeHttpUrl (dns : Str → Option (List IpAddr)) (u : UrlParts) :
    Except FetchGuardError Unit :=
  if ¬(u.scheme = str "http" ∨ u.scheme = str "https") then .error .badScheme
  else if u.hasCredentials then .error .credentialsBlocked
  else if hostText u.host = [] then .error .emptyHost
  else if hostText u.host = str "localhost" ∨ endsWithStr (hostText u.host) (str ".local") then
    .error .localhostBlocked
  else
    match u.host with
    | .ip4 _ a b c d =>
      if isPrivateIp (.v4 a b c d) then .error .privateBlocked else .ok ()
    | .name n =>
      match dns n with
      | none => .error .resolveFailed
      | some [] => .error .resolveFailed
      | some addrs =>
        if addrs.any isPrivateIp then .error .privateBlocked else .ok ()

/-- `fetchAndExtractPage` reduced to its trust-boundary skeleton: validate
first, and only on success issue the GET (recorded as a `contentFetch`
event for the validated host). -/
def fetchAndExtractPage (dns : Str → Option (List IpAddr)) (u : UrlParts) :
    Except FetchGuardError Unit × List SweepEvent :=
  match assertSafeHttpUrl dns u with
  | .error e => (.error e, [])
  | .ok _ => (.ok (), [SweepEvent.contentFetch (hostText u.host)])

/-- Value of one lower-case hexadecimal digit. -/
def hexDigitVal (c : Char) : Option Nat :=
  if '0' ≤ c ∧ c ≤ '9' then some (c.toNat - '0'.toNat)
  else if 'a' ≤ c ∧ c ≤ 'f' then some (c.toNat - 'a'.toNat + 10)
  else none

/-- First 16-bit group of a textual IPv6 address (the digits before the
first colon), used to compare the textual form against CIDR ranges. -/
def firstHextetOfV6 (s : Str) : Option Nat :=
  let ds := s.takeWhile (fun c => c ≠ ':')
  if ds = [] ∨ 4 < ds.length ∨ ds.any (fun c => (hexDigitVal c).isNone) then none
  else some (ds.foldl (fun acc c => acc * 16 + ((hexDigitVal c).getD 0)) 0)

/-- The IPv6 range `fe80::/10` as the spec states it: first 10 bits
`1111111010`, i.e. first hextet between `0xfe80` and `0xfebf`. -/
def inFe80Slash10 (firstHextet : Nat) : Prop :=
  0xfe80 ≤ firstHextet ∧ firstHextet ≤ 0xfebf

/-- The IPv4 private/reserved ranges listed by the spec (10.0.0.0/8,
127.0.0.0/8, 0.0.0.0/8, 169.254.0.0/16, 172.16.0.0/12, 192.168.0.0/16,
100.64.0.0/10, and everything at or above 224.0.0.0), in octet form. -/
def specPrivateV4 (a b : Nat) : Prop :=
  a = 10 ∨ a = 127 ∨ a = 0 ∨ (a = 169 ∧ b = 254) ∨
  (a = 172 ∧ 16 ≤ b ∧ b ≤ 31) ∨ (a = 192 ∧ b = 168) ∨
  (a = 100 ∧ 64 ≤ b ∧ b ≤ 127) ∨ 224 ≤ a

/-! ## Heuristic HTML extractor (`parseHtmlNewsPage` in
`src/lib/feeds/parse-html.ts`).  The DOM is abstracted to what the scan
loop reads from each matched container: the href and text of the first
`a[href]`, the text of the nearest heading, the first paragraph text, and
the first date element.  `querySelectorAll(sel)` on the cleaned document
becomes the page's `containersOf` function over the fixed selector list;
`new URL(href, url)` becomes the `resolve` oracle (`none` models a throwing
constructor) and `Date.parse` + `toISOString` the `parseDate` oracle. -/

/-- The date element of a container (`time, [class*=date], [class*=time]`):
its machine-readable attribute (when present) and its visible text. -/
structure DateEl where
  datetime : Option Str
  text : Str
deriving Repr, DecidableEq

/-- What the scan loop reads from one matched container. -/
structure Container where
  href : Option Str
  linkText : Str
  heading : Option Str
  para : Option Str
  dateEl : Option DateEl
deriving Repr, DecidableEq

/-- JS `a || b` on strings: `b` when `a` is absent or empty. -/
def jsOrStr (a : Option Str) (b : Str) : Str :=
  match a with
  | none => b
  | some s => if s = [] then b else s

/-- The skip test for non-article links: image/document extensions
(case-insensitive) or a tag/category/author/pagination path segment
(case-sensitive, as in the source regexes). -/
def isNonArticleUrl (u : Str) : Bool :=
  let lower := lowerStr u
  endsWithStr lower (str ".jpg") || endsWithStr lower (str ".jpeg") ||
  endsWithStr lower (str ".png") || endsWithStr lower (str ".gif") ||
  endsWithStr lower (str ".pdf") || endsWithStr lower (str ".mp4") ||
  endsWithStr lower (str ".mp3") ||
  containsStr u (str "/tag/") || containsStr u (str "/category/") ||
  containsStr u (str "/author/") || containsStr u (str "/page/")

/-- Published-time extraction: the `datetime` attribute when truthy, else
the trimmed visible text through `Date.parse` (the `parseDate` oracle). -/
def extractPublishedAt (parseDate : Str → Option Str) (c : Container) :
    Option Str :=
  match c.dateEl with
  | none => none
  | some de =>
    match de.datetime with
    | some dt =>
      if dt = [] then
        (if trimStr de.text = [] then none else parseDate (trimStr de.text))
      else some dt
    | none =>
      if trimStr de.text = [] then none else parseDate (trimStr de.text)

/-- One iteration of the container scan: resolve the link, apply the seen /
self-link / non-article skips, record the URL as seen, then apply the
title-length filter and build the article.  Note the URL enters the seen
set before the title filter runs, exactly as in the source. -/
def scanContainer (resolve : Str → Option Str) (pageUrl : Str)
    (parseDate : Str → Option Str) (acc : List Str × List ParsedArticle)
    (c : Container) : List Str × List ParsedArticle :=
  match c.href with
  | none => acc
  | some href =>
    if href = [] then acc
    else
      match resolve href with
      | none => acc
      | some articleUrl =>
        if acc.1.contains articleUrl || articleUrl = pageUrl then acc
        else if isNonArticleUrl articleUrl then acc
        else
          let seen := articleUrl :: acc.1
          let title := trimStr (jsOrStr c.heading c.linkText)
          if title = [] ∨ title.length < 10 then (seen, acc.2)
          else
            let excerpt := (trimStr (collapseWs (jsOrStr c.para []))).take 500
            (seen, acc.2 ++
              [{ title := title, url := articleUrl,
                 publishedAt := extractPublishedAt parseDate c,
                 excerpt := excerpt }])

/-- The scan of one selector's containers, threading the seen set and
collecting this selector's articles. -/
def selectorPass (resolve : Str → Option Str) (pageUrl : Str)
    (parseDate : Str → Option Str) (containers : List Container)
    (seen : List Str) : List Str × List ParsedArticle :=
  containers.foldl (scanContainer resolve pageUrl parseDate) (seen, [])

/-- The selector loop: scan selectors in order, threading the seen set, and
stop at the first selector whose scan produced at least one article
(`if (articles.length > 0) break`). -/
def selectorLoop (resolve : Str → Option Str) (pageUrl : Str)
    (parseDate : Str → Option Str) :
    List (List Container) → List Str → List ParsedArticle
  | [], _ => []
  | cs :: rest, seen =>
    let r := selectorPass resolve pageUrl parseDate cs seen
    if r.2.isEmpty then selectorLoop resolve pageUrl parseDate rest r.1
    else r.2

/-- The ordered container-selector list of the source. -/
def containerSelectors : List Str :=
  [str "article", str "[class*=\"post\"]", str "[class*=\"article\"]",
   str "[class*=\"news-item\"]", str "[class*=\"story\"]",
   str "[class*=\"card\"]", str ".entry", str ".item"]

/-- A fetched HTML page abstracted to its URL and its container matches per
selector (after removal of script/style/nav/footer/header/aside). -/
structure HtmlPage where
  url : Str
  containersOf : Str → List Container

/-- `parseHtmlNewsPage`: run the selector loop over the fixed selector list
and cap the output at 20 articles. -/
def parseHtmlNewsPage (resolve : Str → Option Str)
    (parseDate : Str → Option Str) (page : HtmlPage) : List ParsedArticle :=
  (selectorLoop resolve page.url parseDate
    (containerSelectors.map page.containersOf) []).take 20

/-! ## Concrete data used by witnesses and counterexamples. -/

/-- Identity resolver: models absolute `href` values, which `new URL`
resolves to themselves. -/
def resolveIdentity : Str → Option Str := fun h => some h

/-- Date oracle that always fails to parse (no date elements involved). -/
def parseDateNone : Str → Option Str := fun _ => none

/-- DNS oracle with no entries (never consulted by IP-literal inputs). -/
def dnsNone : Str → Option (List IpAddr) := fun _ => none

/-- An empty organization profile. -/
def exProfile : OrganizationProfile :=
  { focusAreas := [], preferredTerms := [], objectives := [] }

/-- A monitored source used in concrete scenarios. -/
def exSource : WatchedSource :=
  { id := str "src-1", name := str "Example Wildlife News",
    url := str "https://example.org/feed", kind := .rss, enabled := true,
    lastFetchedAt := none, fetchIntervalHours := 24, createdAt := 0 }

/-- A disabled monitored source. -/
def exDisabledSource : WatchedSource :=
  { exSource with
    id := str "src-2",
    url := str "https://example.org/other",
    enabled := false }

/-- A 24-hour source last polled at time 0. -/
def exPolledSource : WatchedSource :=
  { exSource with
    id := str "src-3",
    url := str "https://example.org/third",
    lastFetchedAt := some 0 }

/-- A stored article record used in concrete scenarios. -/
def exStoredArticle : FetchedArticle :=
  { id := 41, sourceId := str "src-A", sourceName := str "Source A",
    title := str "Existing article title", url := str "https://example.org/a1",
    publishedAt := none, fetchedAt := 9000, excerpt := [],
    matchedKeywords := [], relevanceScore := 0, savedToKnowledge := false }

/-- A candidate for the URL of `exStoredArticle`. -/
def exCandidate : ArticleCandidate :=
  { sourceId := str "src-A", sourceName := str "Source A",
    title := str "Existing article title", url := str "https://example.org/a1",
    publishedAt := none, excerpt := [], matchedKeywords := [],
    relevanceScore := 0 }

/-- A candidate for the same URL on behalf of a different source. -/
def exCandidateB : ArticleCandidate :=
  { exCandidate with
    sourceId := str "src-B",
    sourceName := str "Source B",
    title := str "Retitled by source B" }

/-- A parsed article with the URL of `exStoredArticle`. -/
def exParsed : ParsedArticle :=
  { title := str "Existing article title", url := str "https://example.org/a1",
    publishedAt := none, excerpt := [] }

/-- Parsed URL `http://10.0.0.1/` (private IPv4 literal). -/
def exPrivateUrl : UrlParts :=
  { scheme := str "http", hasCredentials := false,
    host := .ip4 (str "10.0.0.1") 10 0 0 1 }

/-- Parsed URL `http://internal.example.com/`: a DNS name. -/
def exNameFe90Url : UrlParts :=
  { scheme := str "http", hasCredentials := false,
    host := .name (str "internal.example.com") }

/-- DNS oracle under which `internal.example.com` resolves to the single
IPv6 address `fe90::1` — a link-local address inside `fe80::/10` whose
bare text (as `dns.lookup` returns it) does not begin with `fe80:`. -/
def exDnsFe90 : Str → Option (List IpAddr) := fun n =>
  if n = str "internal.example.com" then some [.v6 (str "fe90::1")] else none

/-- Parsed URL `http://[fe90::1]/`: the WHATWG parser keeps the brackets in
the hostname, so `net.isIP` classifies it as a name and `dns.lookup` on the
bracketed text throws. -/
def exBracketUrl : UrlParts :=
  { scheme := str "http", hasCredentials := false,
    host := .name (str "[fe90::1]") }

/-- A container whose title is too short, linking a given URL. -/
def exShortTitleContainer (u : Str) : Container :=
  { href := some u, linkText := str "tiny", heading := none, para := none,
    dateEl := none }

/-- A container with an acceptable title, linking a given URL. -/
def exGoodContainer (u : Str) : Container :=
  { href := some u, linkText := [],
    heading := some (str "A perfectly fine headline"), para := none,
    dateEl := none }

/-- Page for the C8 counterexample: the first selector matches two
containers that link the identical URL; the first has a too-short title. -/
def exPageDupUrl : HtmlPage :=
  { url := str "https://example.org/news",
    containersOf := fun sel =>
      if sel = str "article" then
        [exShortTitleContainer (str "https://example.org/story-one"),
         exGoodContainer (str "https://example.org/story-one")]
      else [] }

/-- Page for the C9 counterexample: the first selector matches one container
that produces no article; the second selector produces one. -/
def exPageLaterSelector : HtmlPage :=
  { url := str "https://example.org/news",
    containersOf := fun sel =>
      if sel = str "article" then
        [exShortTitleContainer (str "https://example.org/story-one")]
      else if sel = str "[class*=\"post\"]" then
        [exGoodContainer (str "https://example.org/story-two")]
      else [] }

theorem foldl_score_eq (F : List Str) (l : List Str) (acc : Int) :
    l.foldl (fun a m => a + (if F.contains m then (25 : Int) else 15)) acc
      = acc + (l.map (keywordWeight F)).sum := by
  induction l generalizing acc with
  | nil => simp
  | cons x xs ih =>
    simp only [List.foldl_cons, List.map_cons, List.sum_cons, keywordWeight]
    rw [ih, add_assoc]

theorem weight_sum_nonneg (focusAreasLower : List Str) (l : List Str) :
    0 ≤ (l.map (keywordWeight focusAreasLower)).sum := by
  apply List.sum_nonneg
  intro x hx
  simp only [List.mem_map] at hx
  obtain ⟨m, _, rfl⟩ := hx
  unfold keywordWeight
  split <;> omega

theorem tagArticle_score_eq (title excerpt : Str) (p : OrganizationProfile) :
    (tagArticle title excerpt p).relevanceScore =
      min 100 (((tagArticle title excerpt p).matchedKeywords.map
        (keywordWeight (p.focusAreas.map lowerStr))).sum) := by
  unfold tagArticle
  simp only [foldl_score_eq, zero_add]

/-- C7: for every article text and organization profile, the relevance score
equals the sum of +25 per matched keyword that is (after the lower-casing the
tagger applies to both sides) one of the focus-area terms and +15 per other
matched keyword, clamped to [0, 100]; the score always lies in [0, 100]; and
for a profile with focus area "sea turtles" and title "New sea turtles
nesting site" the tagger returns matched = ["sea turtles"] and score 25. -/
theorem C7_tagArticle_score (title excerpt : Str) (p : OrganizationProfile) :
    (0 ≤ (tagArticle title excerpt p).relevanceScore ∧
      (tagArticle title excerpt p).relevanceScore ≤ 100) ∧
    (tagArticle title excerpt p).relevanceScore =
      min 100 (((tagArticle title excerpt p).matchedKeywords.map
        (keywordWeight (p.focusAreas.map lowerStr))).sum) ∧
    tagArticle (str "New sea turtles nesting site") (str "")
        { focusAreas := [str "sea turtles"], preferredTerms := [], objectives := [] } =
      { matchedKeywords := [str "sea turtles"], relevanceScore := 25 } := by
  refine ⟨⟨?_, ?_⟩, tagArticle_score_eq title excerpt p, by decide⟩
  · rw [tagArticle_score_eq]
    exact le_min (by norm_num) (weight_sum_nonneg _ _)
  · rw [tagArticle_score_eq]
    exact min_le_left _ _

theorem find?_eq_some_of_unique {α : Type} (p : α → Bool) {l : List α} {a : α}
    (ha : a ∈ l) (hpa : p a = true) (huniq : ∀ b ∈ l, p b = true → b = a) :
    l.find? p = some a := by
  induction l with
  | nil => cases ha
  | cons x xs ih =>
    by_cases hx : p x = true
    · have hxa : x = a := huniq x (List.mem_cons_self x xs) hx
      subst hxa
      exact List.find?_cons_of_pos xs hx
    · rw [List.find?_cons_of_neg xs hx]
      rcases List.mem_cons.mp ha with h | h
      · subst h
        exact absurd hpa hx
      · exact ih h (fun b hb => huniq b (List.mem_cons_of_mem x hb))

theorem insertByFetchedAt_perm (a : FetchedArticle)
    (l : List FetchedArticle) : (insertByFetchedAt a l).Perm (a :: l) := by
  induction l with
  | nil => rfl
  | cons b rest ih =>
    unfold insertByFetchedAt
    by_cases h : b.fetchedAt ≤ a.fetchedAt
    · rw [if_pos h]
    · rw [if_neg h]
      exact (ih.cons b).trans (List.Perm.swap a b rest)

theorem sortByFetchedAtDesc_perm (l : List FetchedArticle) :
    (sortByFetchedAtDesc l).Perm l := by
  induction l with
  | nil => rfl
  | cons a rest ih =>
    exact (insertByFetchedAt_perm a (sortByFetchedAtDesc rest)).trans (ih.cons a)

theorem listArticles_plain_perm (stored : List FetchedArticle) :
    (listArticles stored none none none).Perm stored := by
  unfold listArticles
  simp only [Bool.and_true]
  have h : (stored.filter fun _ => true) = stored := List.filter_true stored
  calc (sortByFetchedAtDesc (stored.filter fun _ => true)).Perm
        (stored.filter fun _ => true) := sortByFetchedAtDesc_perm _
    _ = stored := h

theorem getByUrl_eq_some {stored : List FetchedArticle} {u : Str}
    {a : FetchedArticle} (ha : a ∈ stored) (hu : a.url = u)
    (huniq : ∀ b ∈ stored, b.url = u → b = a) :
    getByUrl stored u = some a := by
  unfold getByUrl
  apply find?_eq_some_of_unique
  · exact ((listArticles_plain_perm stored).mem_iff).mpr ha
  · simpa using hu
  · intro b hb hpb
    exact huniq b (((listArticles_plain_perm stored).mem_iff).mp hb) (by simpa using hpb)

theorem getByUrl_eq_none {stored : List FetchedArticle} {u : Str}
    (h : ∀ b ∈ stored, b.url ≠ u) : getByUrl stored u = none := by
  unfold getByUrl
  rw [List.find?_eq_none]
  intro x hx
  simpa using h x (((listArticles_plain_perm stored).mem_iff).mp hx)

/-- C6: the due-for-fetch selection returns exactly the enabled sources
whose last poll is absent or at least `intervalHours` hours (in
milliseconds) in the past; it never returns a disabled source; a 24-hour
source last polled 23 hours ago is excluded and at 24h01m is included. -/
theorem C6_getDueForFetch (sources : List WatchedSource) (now : Int)
    (s : WatchedSource) :
    (s ∈ getDueForFetch sources now ↔
      s ∈ sources ∧ s.enabled = true ∧
        (s.lastFetchedAt = none ∨
          ∃ t, s.lastFetchedAt = some t ∧
            s.fetchIntervalHours * 3600000 ≤ now - t)) ∧
    (s.enabled = false → s ∉ getDueForFetch sources now) ∧
    exPolledSource ∉ getDueForFetch [exPolledSource] (23 * 3600000) ∧
    exPolledSource ∈ getDueForFetch [exPolledSource] (24 * 3600000 + 60000) := by
  refine ⟨?_, ?_, by decide, by decide⟩
  · rw [getDueForFetch, List.mem_filter]
    cases h : s.lastFetchedAt with
    | none => simp [h]
    | some t => simp [h]
  · intro hdis hmem
    rw [getDueForFetch, List.mem_filter] at hmem
    simp [hdis] at hmem

/-- C6 witness: the scheduler theorem applied to a concrete disabled
source. -/
theorem C6_getDueForFetch_witness :
    exDisabledSource ∉ getDueForFetch [exDisabledSource] 0 :=
  (C6_getDueForFetch [exDisabledSource] 0 exDisabledSource).2.1 (by decide)

/-- C5: article ingestion is idempotent.  (1) For a candidate whose URL
equals the (unique) stored record with that URL, `add` returns that record
and leaves the store unchanged, so no field — the promoted flag included —
changes.  (2) For an unseen URL a new record is created with the promoted
flag false.  (3) Ingesting the same URL twice yields the first record again,
leaves the store as after the first add, and exactly one stored record
carries that URL. -/
theorem C5_addArticle_idempotent (stored : List FetchedArticle)
    (freshId freshId2 : Nat) (now now2 : Int) (c c2 : ArticleCandidate)
    (a : FetchedArticle) :
    (a ∈ stored → a.url = c.url → (∀ b ∈ stored, b.url = c.url → b = a) →
      addArticle stored freshId now c = (a, stored)) ∧
    ((∀ b ∈ stored, b.url ≠ c.url) →
      (addArticle stored freshId now c).1.savedToKnowledge = false ∧
      (addArticle stored freshId now c).1.url = c.url ∧
      (addArticle stored freshId now c).2
        = stored ++ [(addArticle stored freshId now c).1]) ∧
    ((∀ b ∈ stored, b.url ≠ c.url) → c2.url = c.url →
      addArticle (addArticle stored freshId now c).2 freshId2 now2 c2
        = ((addArticle stored freshId now c).1,
           (addArticle stored freshId now c).2) ∧
      ((addArticle stored freshId now c).2.countP (fun b => b.url = c.url))
        = 1) := by
  refine ⟨?_, ?_, ?_⟩
  · intro ha hu huniq
    rw [addArticle, getByUrl_eq_some ha hu huniq]
  · intro hnone
    rw [addArticle, getByUrl_eq_none hnone]
    exact ⟨rfl, rfl, rfl⟩
  · intro hnone hurl
    have h1 : addArticle stored freshId now c
        = (⟨freshId, c.sourceId, c.sourceName, c.title, c.url, c.publishedAt,
            now, c.excerpt, c.matchedKeywords, c.relevanceScore, false⟩,
           stored ++ [⟨freshId, c.sourceId, c.sourceName, c.title, c.url,
            c.publishedAt, now, c.excerpt, c.matchedKeywords,
            c.relevanceScore, false⟩]) := by
      rw [addArticle, getByUrl_eq_none hnone]
    rw [h1]
    constructor
    · rw [addArticle]
      rw [getByUrl_eq_some (a := (⟨freshId, c.sourceId, c.sourceName, c.title,
          c.url, c.publishedAt, now, c.excerpt, c.matchedKeywords,
          c.relevanceScore, false⟩ : FetchedArticle))
          (List.mem_append_right stored (List.mem_singleton.mpr rfl))
          (by simpa using hurl.symm)
          ?_]
      intro b hb hbu
      rcases List.mem_append.mp hb with h | h
      · exact absurd (hurl ▸ hbu) (hnone b h)
      · exact List.mem_singleton.mp h
    · rw [List.countP_append]
      have h0 : stored.countP (fun b => b.url = c.url) = 0 :=
        List.countP_eq_zero.mpr (fun b hb => by simpa using hnone b hb)
      rw [h0]
      simp

/-- C5 witness: the idempotence theorem applied at a concrete store and
candidate: re-adding a freshly created record returns it unchanged and the
store holds exactly one record with its URL. -/
theorem C5_addArticle_idempotent_witness :
    addArticle (addArticle [] 7 1000 exCandidate).2 8 2000 exCandidateB
      = ((addArticle [] 7 1000 exCandidate).1,
         (addArticle [] 7 1000 exCandidate).2) ∧
    ((addArticle [] 7 1000 exCandidate).2.countP
      (fun b => b.url = exCandidate.url)) = 1 :=
  (C5_addArticle_idempotent [] 7 8 1000 2000 exCandidate exCandidateB
    exStoredArticle).2.2 (by simp) (by decide)

theorem listArticles_bySource_mem (stored : List FetchedArticle) (sid : Str)
    (a : FetchedArticle) :
    a ∈ listArticles stored (some sid) none none ↔
      a ∈ stored ∧ a.sourceId = sid := by
  unfold listArticles
  rw [(sortByFetchedAtDesc_perm _).mem_iff]
  simp [List.mem_filter]

theorem deleteBySource_foldl (l : List FetchedArticle)
    (acc : Nat × List FetchedArticle) :
    (l.foldl (fun acc article =>
        let r := deleteArticle acc.2 article.id
        (if r.1 then acc.1 + 1 else acc.1, r.2)) acc).2
      = acc.2.filter (fun a => l.all (fun d => a.id ≠ d.id)) := by
  induction l generalizing acc with
  | nil => simp
  | cons d rest ih =>
    rw [List.foldl_cons, ih]
    show ((acc.2.filter (fun a => a.id ≠ d.id)).filter
        (fun a => rest.all (fun x => a.id ≠ x.id))) = _
    rw [List.filter_filter]
    apply List.filter_congr
    intro x _
    simp [List.all_cons, Bool.and_comm]

theorem deleteBySource_eq (stored : List FetchedArticle) (sid : Str) :
    (deleteBySource stored sid).2
      = stored.filter (fun a =>
          (listArticles stored (some sid) none none).all
            (fun d => a.id ≠ d.id)) := by
  unfold deleteBySource
  exact deleteBySource_foldl _ _

/-- C10: deduplication is global across sources and attribution is
first-writer-wins: when a URL unseen in the store is first ingested for
source A (with a fresh id), a later add of the same URL on behalf of a
different source B returns the stored record still carrying A's sourceId
and sourceName with the store unmodified, the record is listed under A and
never under B, delete-by-source for B leaves it in place, and
delete-by-source for A removes it. -/
theorem C10_first_writer_wins (stored : List FetchedArticle) (idA idB : Nat)
    (nowA nowB : Int) (cA cB : ArticleCandidate)
    (hfresh : ∀ b ∈ stored, b.url ≠ cA.url)
    (hurl : cB.url = cA.url)
    (hsrc : cB.sourceId ≠ cA.sourceId)
    (hid : ∀ b ∈ stored, b.id ≠ idA) :
    addArticle (addArticle stored idA nowA cA).2 idB nowB cB
      = ((addArticle stored idA nowA cA).1,
         (addArticle stored idA nowA cA).2) ∧
    (addArticle stored idA nowA cA).1.sourceId = cA.sourceId ∧
    (addArticle stored idA nowA cA).1.sourceName = cA.sourceName ∧
    (addArticle stored idA nowA cA).1
      ∈ listArticles (addArticle stored idA nowA cA).2 (some cA.sourceId)
          none none ∧
    (addArticle stored idA nowA cA).1
      ∉ listArticles (addArticle stored idA nowA cA).2 (some cB.sourceId)
          none none ∧
    (addArticle stored idA nowA cA).1
      ∈ (deleteBySource (addArticle stored idA nowA cA).2 cB.sourceId).2 ∧
    (addArticle stored idA nowA cA).1
      ∉ (deleteBySource (addArticle stored idA nowA cA).2 cA.sourceId).2 := by
  have h1 : addArticle stored idA nowA cA
      = (⟨idA, cA.sourceId, cA.sourceName, cA.title, cA.url, cA.publishedAt,
          nowA, cA.excerpt, cA.matchedKeywords, cA.relevanceScore, false⟩,
         stored ++ [⟨idA, cA.sourceId, cA.sourceName, cA.title, cA.url,
          cA.publishedAt, nowA, cA.excerpt, cA.matchedKeywords,
          cA.relevanceScore, false⟩]) := by
    rw [addArticle, getByUrl_eq_none hfresh]
  set r : FetchedArticle :=
    ⟨idA, cA.sourceId, cA.sourceName, cA.title, cA.url, cA.publishedAt,
      nowA, cA.excerpt, cA.matchedKeywords, cA.relevanceScore, false⟩ with hr
  rw [h1]
  have hrmem : r ∈ stored ++ [r] :=
    List.mem_append_right stored (List.mem_singleton.mpr rfl)
  have hmemA : r ∈ listArticles (stored ++ [r]) (some cA.sourceId) none none :=
    (listArticles_bySource_mem _ _ _).mpr ⟨hrmem, rfl⟩
  refine ⟨?_, rfl, rfl, hmemA, ?_, ?_, ?_⟩
  · rw [addArticle, getByUrl_eq_some (a := r) hrmem (by simpa using hurl.symm) ?_]
    intro b hb hbu
    rcases List.mem_append.mp hb with h | h
    · exact absurd (hurl ▸ hbu) (hfresh b h)
    · exact List.mem_singleton.mp h
  · intro hmem
    exact hsrc (((listArticles_bySource_mem _ _ _).mp hmem).2.symm)
  · rw [deleteBySource_eq, List.mem_filter]
    refine ⟨hrmem, ?_⟩
    rw [List.all_eq_true]
    intro d hd
    have hd2 := (listArticles_bySource_mem _ _ _).mp hd
    rcases List.mem_append.mp hd2.1 with h | h
    · simpa using (hid d h).symm
    · have : d = r := List.mem_singleton.mp h
      subst this
      exact absurd hd2.2 (by simpa using fun he => hsrc he.symm)
  · intro hmem
    rw [deleteBySource_eq, List.mem_filter] at hmem
    have := (List.all_eq_true.mp hmem.2) r hmemA
    simp at this

/-- C10 witness: the first-writer-wins theorem applied to an empty store and
two concrete candidates from different sources for the same URL. -/
theorem C10_first_writer_wins_witness :
    addArticle (addArticle [] 7 1000 exCandidate).2 8 2000 exCandidateB
      = ((addArticle [] 7 1000 exCandidate).1,
         (addArticle [] 7 1000 exCandidate).2) ∧
    (addArticle [] 7 1000 exCandidate).1.sourceId = exCandidate.sourceId :=
  have h := C10_first_writer_wins [] 7 8 1000 2000 exCandidate exCandidateB
    (by simp) (by decide) (by decide) (by simp)
  ⟨h.1, h.2.1⟩

/-- C1 counterexample: processing a source emits the content fetch with no
robots-authorization event anywhere in the trace, so the sweep fetches
without first consulting the Robots Compliance Gate. -/
theorem C1_counterexample :
    (fetchSourceArticles exSource exProfile 0 (Except.ok [exParsed])
        ⟨[], [exSource], 0⟩).2.2
      = [SweepEvent.contentFetch (str "https://example.org/feed")] ∧
    ((fetchSourceArticles exSource exProfile 0 (Except.ok [exParsed])
        ⟨[], [exSource], 0⟩).2.2).countP isRobotsCheckEvent = 0 ∧
    ((fetchSourceArticles exSource exProfile 0 (Except.ok [exParsed])
        ⟨[], [exSource], 0⟩).2.2).countP isContentFetchEvent = 1 := by
  decide

/-- C1 amended: during a sweep the orchestrator issues exactly one content
fetch per processed source, unconditionally and with no robots-compliance
authorization at all (the robots module is consulted only by the research
analyze route, not by the monitor pipeline). -/
theorem C1_amended_no_robots_gate (source : WatchedSource)
    (orgProfile : OrganizationProfile) (now : Int)
    (parseResult : Except Str (List ParsedArticle)) (st : SweepState) :
    (fetchSourceArticles source orgProfile now parseResult st).2.2
      = [SweepEvent.contentFetch source.url] ∧
    ((fetchSourceArticles source orgProfile now parseResult st).2.2).countP
      isRobotsCheckEvent = 0 := by
  cases parseResult <;>
    simp [fetchSourceArticles, List.countP_cons, isRobotsCheckEvent]

/-- C3 counterexample: a candidate whose URL already has a stored record
(fetched 1000 ms before the sweep) is counted as new although the add
returned the pre-existing record and the store was not modified. -/
theorem C3_counterexample :
    (fetchSourceArticles exSource exProfile 10000 (Except.ok [exParsed])
        ⟨[exStoredArticle], [exSource], 50⟩).1.newArticles = 1 ∧
    (fetchSourceArticles exSource exProfile 10000 (Except.ok [exParsed])
        ⟨[exStoredArticle], [exSource], 50⟩).2.1.articles
      = [exStoredArticle] := by
  decide

/-- C3 amended: the per-source new-article count is incremented iff the
record returned by the ingestion write has a fetch time within the last
5000 milliseconds — a wall-clock-proximity heuristic, not the creation
signal: a genuinely new record is always counted, but a returned
pre-existing record is also counted whenever it is younger than 5 s. -/
theorem C3_amended_newCount (source : WatchedSource)
    (orgProfile : OrganizationProfile) (now : Int) (st : SweepState)
    (c : ParsedArticle) :
    (getByUrl st.articles c.url = none →
      (fetchSourceArticles source orgProfile now (Except.ok [c]) st).1.newArticles
        = 1) ∧
    (∀ a, getByUrl st.articles c.url = some a →
      ((fetchSourceArticles source orgProfile now (Except.ok [c]) st).1.newArticles
        = if now - 5000 < a.fetchedAt then 1 else 0) ∧
      (fetchSourceArticles source orgProfile now (Except.ok [c]) st).2.1.articles
        = st.articles) := by
  constructor
  · intro h
    have hlt : now - 5000 < now := by omega
    simp [fetchSourceArticles, processArticle, addArticle, h, hlt]
  · intro a ha
    constructor
    · by_cases hlt : now - 5000 < a.fetchedAt
      · simp [fetchSourceArticles, processArticle, addArticle, ha, hlt]
      · simp [fetchSourceArticles, processArticle, addArticle, ha, hlt]
    · simp [fetchSourceArticles, processArticle, addArticle, ha]

/-- C3 witness: the amended count theorem applied to an unseen URL. -/
theorem C3_amended_newCount_witness :
    (fetchSourceArticles exSource exProfile 0 (Except.ok [exParsed])
        ⟨[], [exSource], 0⟩).1.newArticles = 1 :=
  (C3_amended_newCount exSource exProfile 0 ⟨[], [exSource], 0⟩ exParsed).1
    (by decide)

theorem processArticle_keeps_sources (source : WatchedSource)
    (orgProfile : OrganizationProfile) (now : Int)
    (articles : List ParsedArticle) (acc : SweepState × Nat) :
    (articles.foldl (processArticle source orgProfile now) acc).1.sources
      = acc.1.sources := by
  induction articles generalizing acc with
  | nil => rfl
  | cons a rest ih =>
    rw [List.foldl_cons, ih]
    rfl

theorem updateLastFetched_find (sources : List WatchedSource) (id : Str)
    (now : Int) :
    (updateLastFetched sources id now).find? (fun s => s.id = id)
      = (sources.find? (fun s => s.id = id)).map
          (fun s => { s with lastFetchedAt := some now }) := by
  induction sources with
  | nil => rfl
  | cons s rest ih =>
    unfold updateLastFetched
    by_cases h : s.id = id
    · rw [if_pos h, List.find?_cons_of_pos _ (by simpa using h),
        List.find?_cons_of_pos _ (by simpa using h)]
      rfl
    · rw [if_neg h, List.find?_cons_of_neg _ (by simpa using h),
        List.find?_cons_of_neg _ (by simpa using h)]
      exact ih

/-- C4 counterexample: a source whose fetch/parse throws is returned with
its sources list untouched — its `lastFetchedAt` (here `none`) is not
stamped to the current time 777. -/
theorem C4_counterexample :
    (fetchSourceArticles exSource exProfile 777
        (Except.error (str "network down")) ⟨[], [exSource], 0⟩).2.1.sources
      = [exSource] ∧
    exSource.lastFetchedAt ≠ some 777 := by
  decide

/-- C4 amended: `lastFetchedAt` is stamped to now whenever the fetch+parse
pipeline completes (per-article failures are caught inside the loop and do
not prevent the stamp), but when the fetch/parse throws the per-source
handler skips the stamp and the sources list is left unchanged. -/
theorem C4_amended_lastFetched (source : WatchedSource)
    (orgProfile : OrganizationProfile) (now : Int) (st : SweepState)
    (e : Str) (articles : List ParsedArticle) :
    (fetchSourceArticles source orgProfile now (Except.error e) st).2.1.sources
      = st.sources ∧
    (fetchSourceArticles source orgProfile now (Except.ok articles) st).2.1.sources
      = updateLastFetched st.sources source.id now ∧
    ((fetchSourceArticles source orgProfile now (Except.ok articles) st).2.1.sources.find?
        (fun s => s.id = source.id))
      = (st.sources.find? (fun s => s.id = source.id)).map
          (fun s => { s with lastFetchedAt := some now }) := by
  refine ⟨rfl, ?_, ?_⟩
  · show (updateLastFetched
        (articles.foldl (processArticle source orgProfile now) (st, 0)).1.sources
        source.id now) = _
    rw [processArticle_keeps_sources]
  · show ((updateLastFetched
        (articles.foldl (processArticle source orgProfile now) (st, 0)).1.sources
        source.id now).find? (fun s => s.id = source.id)) = _
    rw [processArticle_keeps_sources, updateLastFetched_find]

theorem isPrivateIp_v4_iff (a b c d : Nat) :
    isPrivateIp (.v4 a b c d) = true ↔ specPrivateV4 a b := by
  simp only [isPrivateIp, specPrivateV4, Bool.or_eq_true, Bool.and_eq_true,
    beq_iff_eq, decide_eq_true_eq]
  tauto

theorem isPrivateIp_v6_iff (s : Str) :
    isPrivateIp (.v6 s) = true ↔
      (lowerStr s = str "::1" ∨
        startsWithStr (lowerStr s) (str "fe80:") = true ∨
        startsWithStr (lowerStr s) (str "fc") = true ∨
        startsWithStr (lowerStr s) (str "fd") = true) := by
  simp only [isPrivateIp, Bool.or_eq_true, beq_iff_eq]
  tauto

theorem if_private_iff {P : Prop} {b : Bool}
    (hb : b = true ↔ P) :
    ((if b = true then Except.error FetchGuardError.privateBlocked
      else Except.ok ()) = Except.ok ()) ↔ ¬ P := by
  by_cases hp : P
  · rw [if_pos (hb.mpr hp)]
    simp [hp]
  · rw [if_neg (fun hbt => hp (hb.mp hbt))]
    simp [hp]

theorem if_any_private_iff (addrs : List IpAddr) :
    ((if addrs.any isPrivateIp = true then
        Except.error FetchGuardError.privateBlocked
      else Except.ok ()) = Except.ok ())
      ↔ ∀ a ∈ addrs, isPrivateIp a = false := by
  by_cases hp : addrs.any isPrivateIp = true
  · rw [if_pos hp]
    rcases List.any_eq_true.mp hp with ⟨x, hx, hpx⟩
    constructor
    · intro h
      exact absurd h (by simp)
    · intro h
      exact absurd (h x hx) (by simp [hpx])
  · rw [if_neg hp]
    have hfalse : addrs.any isPrivateIp = false := by simpa using hp
    constructor
    · intro _ x hx
      simpa using List.any_eq_false.mp hfalse x hx
    · intro _
      rfl

theorem assertSafe_preamble (dns : Str → Option (List IpAddr)) (u : UrlParts)
    (hscheme : u.scheme = str "http" ∨ u.scheme = str "https")
    (hcred : u.hasCredentials = false)
    (hne : ¬ hostText u.host = [])
    (hlocal : ¬(hostText u.host = str "localhost" ∨
        endsWithStr (hostText u.host) (str ".local"))) :
    assertSafeHttpUrl dns u =
      (match u.host with
       | .ip4 _ a b c d =>
          if isPrivateIp (.v4 a b c d) then .error .privateBlocked
          else .ok ()
       | .name n =>
          match dns n with
          | none => .error .resolveFailed
          | some [] => .error .resolveFailed
          | some addrs =>
            if addrs.any isPrivateIp then .error .privateBlocked
            else .ok ()) := by
  unfold assertSafeHttpUrl
  rw [if_neg (not_not_intro hscheme), if_neg (by simp [hcred]), if_neg hne,
    if_neg hlocal]

/-- C2 counterexample: the hostname `internal.example.com` resolves via
DNS to the single address `fe90::1`, which lies in `fe80::/10` (its first
hextet is `0xfe90`, between `0xfe80` and `0xfebf`), yet the guard validates
the URL successfully and the GET is issued — the textual IPv6 test misses
it.  By contrast the literal URL `http://[fe90::1]/` keeps its brackets in
the hostname, its lookup throws, and no GET is issued for it. -/
theorem C2_counterexample :
    firstHextetOfV6 (str "fe90::1") = some 0xfe90 ∧
    inFe80Slash10 0xfe90 ∧
    exDnsFe90 (str "internal.example.com")
      = some [IpAddr.v6 (str "fe90::1")] ∧
    assertSafeHttpUrl exDnsFe90 exNameFe90Url = Except.ok () ∧
    (fetchAndExtractPage exDnsFe90 exNameFe90Url).2
      = [SweepEvent.contentFetch (str "internal.example.com")] ∧
    assertSafeHttpUrl exDnsFe90 exBracketUrl
      = Except.error FetchGuardError.resolveFailed ∧
    (fetchAndExtractPage exDnsFe90 exBracketUrl).2 = [] := by
  refine ⟨by decide, by norm_num [inFe80Slash10], by rfl, by rfl, by rfl,
    by rfl, by rfl⟩

/-- C2 amended: under the structural URL checks (http/https scheme, no
credentials, nonempty non-localhost host) the guard rejects an IPv4-literal
hostname exactly on the spec's CIDR list; a hostname whose lookup throws
(such as a bracketed IPv6 literal, the only form the WHATWG parser
produces for IPv6) is rejected as unresolvable; a resolving hostname is
accepted iff no resolved address is private, where the per-address IPv6
test is textual — exactly `::1` and lower-cased texts starting with
`fe80:`, `fc` or `fd`, which misses part of `fe80::/10`; and the guard
throws before any GET, issuing the GET exactly on successful validation. -/
theorem C2_amended_guard (dns : Str → Option (List IpAddr)) (u : UrlParts)
    (hscheme : u.scheme = str "http" ∨ u.scheme = str "https")
    (hcred : u.hasCredentials = false)
    (hne : ¬ hostText u.host = [])
    (hlocal : ¬(hostText u.host = str "localhost" ∨
        endsWithStr (hostText u.host) (str ".local"))) :
    (∀ t a b c d, u.host = .ip4 t a b c d →
      (assertSafeHttpUrl dns u = .ok () ↔ ¬ specPrivateV4 a b)) ∧
    (∀ n, u.host = .name n → dns n = none →
      assertSafeHttpUrl dns u = .error .resolveFailed) ∧
    (∀ n addrs, u.host = .name n → dns n = some addrs → addrs ≠ [] →
      (assertSafeHttpUrl dns u = .ok () ↔
        ∀ a ∈ addrs, isPrivateIp a = false)) ∧
    (∀ s, isPrivateIp (.v6 s) = true ↔
      (lowerStr s = str "::1" ∨
        startsWithStr (lowerStr s) (str "fe80:") = true ∨
        startsWithStr (lowerStr s) (str "fc") = true ∨
        startsWithStr (lowerStr s) (str "fd") = true)) ∧
    (∀ e, assertSafeHttpUrl dns u = .error e →
      (fetchAndExtractPage dns u).2 = []) ∧
    (assertSafeHttpUrl dns u = .ok () →
      (fetchAndExtractPage dns u).2
        = [SweepEvent.contentFetch (hostText u.host)]) := by
  have hpre := assertSafe_preamble dns u hscheme hcred hne hlocal
  refine ⟨?_, ?_, ?_, isPrivateIp_v6_iff, ?_, ?_⟩
  · intro t a b c d hh
    rw [hpre, hh]
    exact if_private_iff (isPrivateIp_v4_iff a b c d)
  · intro n hh hdns
    rw [hpre, hh]
    show (match dns n with
          | none => Except.error FetchGuardError.resolveFailed
          | some [] => Except.error FetchGuardError.resolveFailed
          | some addrs =>
            if addrs.any isPrivateIp then
              Except.error FetchGuardError.privateBlocked
            else Except.ok ()) = Except.error FetchGuardError.resolveFailed
    rw [hdns]
  · intro n addrs hh hdns hnil
    rw [hpre, hh]
    show (match dns n with
          | none => Except.error FetchGuardError.resolveFailed
          | some [] => Except.error FetchGuardError.resolveFailed
          | some addrs =>
            if addrs.any isPrivateIp then
              Except.error FetchGuardError.privateBlocked
            else Except.ok ()) = Except.ok () ↔ _
    rw [hdns]
    cases addrs with
    | nil => exact absurd rfl hnil
    | cons a rest => exact if_any_private_iff (a :: rest)
  · intro e he
    unfold fetchAndExtractPage
    rw [he]
  · intro hok
    unfold fetchAndExtractPage
    rw [hok]

/-- C2 witness: the amended guard theorem applied to the concrete private
literal `http://10.0.0.1/`, which the guard rejects. -/
theorem C2_amended_guard_witness :
    assertSafeHttpUrl dnsNone exPrivateUrl ≠ Except.ok () := fun hok =>
  (((C2_amended_guard dnsNone exPrivateUrl (Or.inl rfl) rfl (by decide)
      (by decide)).1 (str "10.0.0.1") 10 0 0 1 rfl).mp hok) (Or.inl rfl)

theorem selectorLoop_cons (resolve : Str → Option Str) (pageUrl : Str)
    (parseDate : Str → Option Str) (cs : List Container)
    (rest : List (List Container)) (seen : List Str) :
    selectorLoop resolve pageUrl parseDate (cs :: rest) seen
      = (if (selectorPass resolve pageUrl parseDate cs seen).2.isEmpty then
          selectorLoop resolve pageUrl parseDate rest
            (selectorPass resolve pageUrl parseDate cs seen).1
         else (selectorPass resolve pageUrl parseDate cs seen).2) := rfl

theorem scanContainer_cases (resolve : Str → Option Str) (pageUrl : Str)
    (parseDate : Str → Option Str) (st : List Str × List ParsedArticle)
    (c : Container) :
    scanContainer resolve pageUrl parseDate st c = st ∨
    ∃ u, u ∉ st.1 ∧
      (scanContainer resolve pageUrl parseDate st c = (u :: st.1, st.2) ∨
       ∃ art : ParsedArticle, art.url = u ∧
        scanContainer resolve pageUrl parseDate st c
          = (u :: st.1, st.2 ++ [art])) := by
  unfold scanContainer
  split
  · exact Or.inl rfl
  next href =>
    split
    · exact Or.inl rfl
    · split
      · exact Or.inl rfl
      next u heq =>
        split
        · exact Or.inl rfl
        next hseen =>
          split
          · exact Or.inl rfl
          · have hu : u ∉ st.1 := by
              intro hmem
              apply hseen
              rw [Bool.or_eq_true]
              exact Or.inl (List.elem_eq_true_of_mem hmem)
            dsimp only
            split
            · exact Or.inr ⟨u, hu, Or.inl rfl⟩
            · exact Or.inr ⟨u, hu, Or.inr ⟨_, rfl, rfl⟩⟩

theorem scanContainer_step (resolve : Str → Option Str) (pageUrl : Str)
    (parseDate : Str → Option Str) (st : List Str × List ParsedArticle)
    (c : Container)
    (h1 : ((st.2.map fun a => a.url)).Nodup)
    (h2 : ∀ a ∈ st.2, a.url ∈ st.1) :
    (((scanContainer resolve pageUrl parseDate st c).2.map fun a => a.url)).Nodup ∧
    ∀ a ∈ (scanContainer resolve pageUrl parseDate st c).2,
      a.url ∈ (scanContainer resolve pageUrl parseDate st c).1 := by
  rcases scanContainer_cases resolve pageUrl parseDate st c with
    h | ⟨u, hu, h | ⟨art, hart, h⟩⟩
  · rw [h]
    exact ⟨h1, h2⟩
  · rw [h]
    exact ⟨h1, fun a ha => List.mem_cons_of_mem _ (h2 a ha)⟩
  · rw [h]
    constructor
    · rw [List.map_append, List.nodup_append]
      refine ⟨h1, by simp, ?_⟩
      intro x hx hx2
      rcases List.mem_map.mp hx with ⟨a, ha, rfl⟩
      have hmem : a.url ∈ st.1 := h2 a ha
      have hxu : a.url = u := by simpa [hart] using hx2
      exact hu (hxu ▸ hmem)
    · intro a ha
      rcases List.mem_append.mp ha with ha | ha
      · exact List.mem_cons_of_mem _ (h2 a ha)
      · have hae : a = art := List.mem_singleton.mp ha
        subst hae
        rw [hart]
        exact List.mem_cons_self u st.1

theorem foldl_scan_inv (resolve : Str → Option Str) (pageUrl : Str)
    (parseDate : Str → Option Str) (containers : List Container) :
    ∀ st : List Str × List ParsedArticle,
      ((st.2.map fun a => a.url)).Nodup → (∀ a ∈ st.2, a.url ∈ st.1) →
      (((containers.foldl (scanContainer resolve pageUrl parseDate) st).2.map
          fun a => a.url)).Nodup ∧
      ∀ a ∈ (containers.foldl (scanContainer resolve pageUrl parseDate) st).2,
        a.url ∈ (containers.foldl (scanContainer resolve pageUrl parseDate) st).1 := by
  induction containers with
  | nil =>
    intro st h1 h2
    exact ⟨h1, h2⟩
  | cons c rest ih =>
    intro st h1 h2
    rw [List.foldl_cons]
    have hstep := scanContainer_step resolve pageUrl parseDate st c h1 h2
    exact ih _ hstep.1 hstep.2

theorem selectorPass_nodup (resolve : Str → Option Str) (pageUrl : Str)
    (parseDate : Str → Option Str) (cs : List Container) (seen : List Str) :
    (((selectorPass resolve pageUrl parseDate cs seen).2.map
        fun a => a.url)).Nodup := by
  unfold selectorPass
  exact (foldl_scan_inv resolve pageUrl parseDate cs (seen, []) (by simp)
    (by simp)).1

theorem selectorLoop_nodup (resolve : Str → Option Str) (pageUrl : Str)
    (parseDate : Str → Option Str) (css : List (List Container)) :
    ∀ seen, (((selectorLoop resolve pageUrl parseDate css seen).map
      fun a => a.url)).Nodup := by
  induction css with
  | nil =>
    intro seen
    simp [selectorLoop]
  | cons cs rest ih =>
    intro seen
    rw [selectorLoop_cons]
    split
    · exact ih _
    · exact selectorPass_nodup resolve pageUrl parseDate cs seen

theorem countP_url_le_one (l : List ParsedArticle) (u : Str)
    (h : ((l.map fun a => a.url)).Nodup) :
    l.countP (fun a => a.url = u) ≤ 1 := by
  induction l with
  | nil => simp
  | cons a rest ih =>
    rw [List.countP_cons]
    simp only [List.map_cons, List.nodup_cons] at h
    by_cases hu : a.url = u
    · have hzero : rest.countP (fun a => a.url = u) = 0 := by
        rw [List.countP_eq_zero]
        intro b hb
        simp only [decide_eq_true_eq]
        intro hbu
        exact h.1 (List.mem_map.mpr ⟨b, hb, by rw [hbu, hu]⟩)
      simp [hu, hzero]
    · simpa [hu] using ih h.2

/-- C8 counterexample: a page on which two containers (matched by the first
selector) link the identical resolved URL yields zero extracted articles,
not exactly one: the first container consumes the URL into the seen set and
is then rejected by the title filter, and the second container is skipped
as already seen. -/
theorem C8_counterexample :
    ((exPageDupUrl.containersOf (str "article")).countP
      (fun c => c.href = some (str "https://example.org/story-one"))) = 2 ∧
    parseHtmlNewsPage resolveIdentity parseDateNone exPageDupUrl = [] := by
  refine ⟨by decide, by decide⟩

/-- C8 amended: the extractor never produces two articles for one resolved
URL — per page and URL the output contains at most one article with that
URL (but possibly zero even when containers link it, since a URL consumed
by a title-rejected container is not revisited). -/
theorem C8_amended_at_most_one (resolve : Str → Option Str)
    (parseDate : Str → Option Str) (page : HtmlPage) (u : Str) :
    (parseHtmlNewsPage resolve parseDate page).countP (fun a => a.url = u)
      ≤ 1 := by
  unfold parseHtmlNewsPage
  exact Nat.le_trans
    (List.Sublist.countP_le _ (List.take_sublist 20 _))
    (countP_url_le_one _ u (selectorLoop_nodup resolve page.url parseDate _ []))

/-- C9 counterexample: the first selector matches one container, yet the
output article comes from the second selector (the first selector's only
container fails the title filter and contributes no article, so the loop
moves on instead of stopping at the first selector with a match). -/
theorem C9_counterexample :
    (exPageLaterSelector.containersOf (str "article")).length = 1 ∧
    ((exPageLaterSelector.containersOf (str "article")).countP
        (fun c => c.href = some (str "https://example.org/story-two"))) = 0 ∧
    parseHtmlNewsPage resolveIdentity parseDateNone exPageLaterSelector
      = [{ title := str "A perfectly fine headline",
           url := str "https://example.org/story-two",
           publishedAt := none, excerpt := [] }] := by
  refine ⟨by decide, by decide, by decide⟩

/-- C9 amended: the loop stops at the first selector whose scan yields at
least one extracted article (not merely a container match): when a
selector's scan produces articles, the output is exactly that scan's
articles and later selectors cannot influence it; when a selector's scan
produces no article, the loop continues with the threaded seen set. -/
theorem C9_amended_first_article_wins (resolve : Str → Option Str)
    (pageUrl : Str) (parseDate : Str → Option Str) (cs : List Container)
    (rest rest2 : List (List Container)) (seen : List Str) :
    ((selectorPass resolve pageUrl parseDate cs seen).2 ≠ [] →
      selectorLoop resolve pageUrl parseDate (cs :: rest) seen
        = (selectorPass resolve pageUrl parseDate cs seen).2 ∧
      selectorLoop resolve pageUrl parseDate (cs :: rest) seen
        = selectorLoop resolve pageUrl parseDate (cs :: rest2) seen) ∧
    ((selectorPass resolve pageUrl parseDate cs seen).2 = [] →
      selectorLoop resolve pageUrl parseDate (cs :: rest) seen
        = selectorLoop resolve pageUrl parseDate rest
            (selectorPass resolve pageUrl parseDate cs seen).1) := by
  constructor
  · intro h
    have hne : ¬((selectorPass resolve pageUrl parseDate cs seen).2.isEmpty = true) := by
      simpa [List.isEmpty_iff] using h
    rw [selectorLoop_cons, selectorLoop_cons, if_neg hne, if_neg hne]
    exact ⟨rfl, rfl⟩
  · intro h
    rw [selectorLoop_cons, if_pos (by simpa [List.isEmpty_iff] using h)]

/-- C9 witness: the stop property applied to a concrete selector list whose
first selector produces an article — the tail of the selector list is
irrelevant. -/
theorem C9_amended_first_article_wins_witness :
    selectorLoop resolveIdentity (str "https://example.org/news") parseDateNone
        [[exGoodContainer (str "https://example.org/story-one")],
         [exShortTitleContainer (str "https://example.org/x")]] []
      = selectorLoop resolveIdentity (str "https://example.org/news") parseDateNone
        [[exGoodContainer (str "https://example.org/story-one")], []] [] :=
  ((C9_amended_first_article_wins resolveIdentity
      (str "https://example.org/news") parseDateNone
      [exGoodContainer (str "https://example.org/story-one")]
      [[exShortTitleContainer (str "https://example.org/x")]] [[]] []).1
    (by decide)).2

end WildlifeBlog
